import Mathlib

/-!
Verification of the OpenCL extension registry fragment
(`src/dlls/opencl/extensions.h`).

The source file declares `struct extension_info`, forward-declares the
resolver `cl_khr_d3d10_sharing_get_function`, and defines the static table
`known_extensions` with a single row.  Nullable C pointers (`const char *`
and the function pointer) are embedded as `Option`.  The resolver body is
external to the fragment, so all definitions and theorems are parameterized
over it.  The lookup operations `find_extension` and `resolve_function`
are not present in the source; they are modelled from the spec.
-/

/-- An abstract address of a resolved entry point.  A resolver returns
`void*`, embedded as `Option FuncAddr` with `none` modelling NULL. -/
abbrev FuncAddr := Nat

/-- The type of an extension resolver body, `void* (*)(const char*)`:
maps a symbol name to an address, or `none` for a NULL return. -/
abbrev Resolver := String → Option FuncAddr

/-- Embedding of `struct extension_info` from `src/dlls/opencl/extensions.h`.
The nullable `const char *name` is `Option String` (`none` = NULL pointer)
and the nullable function pointer `get_function` is `Option Resolver`
(`none` = NULL pointer). -/
structure extension_info where
  name : Option String
  get_function : Option Resolver

section

variable (cl_khr_d3d10_sharing_get_function : Resolver)

/-- Embedding of the static table `known_extensions` from
`src/dlls/opencl/extensions.h`, parameterized over the externally linked body
of `cl_khr_d3d10_sharing_get_function` (declared but not defined in the
fragment).  It holds exactly the one row written in the source. -/
def known_extensions : List extension_info :=
  [{ name := some "cl_khr_d3d10_sharing",
     get_function := some cl_khr_d3d10_sharing_get_function }]

end

/-- Modelled from the spec: the lookup core of `find_extension`, which is
described in the spec but absent from the fragment.  Scans a registry for
the entry whose `name` equals the requested name by exact, case-sensitive
string comparison; returns the first match or not-found. -/
def find_in (registry : List extension_info) (name : String) :
    Option extension_info :=
  registry.find? (fun e => e.name == some name)

/-- Modelled from the spec: `find_extension(name) -> optional(ExtensionEntry)`
over the static registry `known_extensions`; the operation itself is absent
from the fragment. -/
def find_extension (cl_khr_d3d10_sharing_get_function : Resolver)
    (name : String) : Option extension_info :=
  find_in (known_extensions cl_khr_d3d10_sharing_get_function) name

/-- Modelled from the spec: `resolve_function(entry, symbol_name)` delegates
to `entry.resolver(symbol_name)`; the operation is absent from the fragment.
The spec's data model has no NULL resolver, so the NULL-pointer case of the
embedding is mapped to not-found. -/
def resolve_function (entry : extension_info) (symbol_name : String) :
    Option FuncAddr :=
  match entry.get_function with
  | some r => r symbol_name
  | none => none

/-- Process state observed by queries: the registry contents.  Used to
express immutability and absence of side effects as state preservation. -/
structure ShimState where
  registry : List extension_info

/-- Modelled from the spec: state-passing view of `find_extension`, making
any effect on the registry explicit in the result. -/
def find_extension_st (s : ShimState) (name : String) :
    Option extension_info × ShimState :=
  (find_in s.registry name, s)

/-- Modelled from the spec: state-passing view of `resolve_function`. -/
def resolve_function_st (s : ShimState) (entry : extension_info)
    (symbol_name : String) : Option FuncAddr × ShimState :=
  (resolve_function entry symbol_name, s)

/-- A query against the registry fragment: either a name lookup or a symbol
resolution through a given entry. -/
inductive Query where
  | findq (name : String)
  | resolveq (entry : extension_info) (symbol_name : String)

/-- The answer returned by a query. -/
inductive Answer where
  | found (e : Option extension_info)
  | addr (a : Option FuncAddr)

/-- Modelled from the spec: execution of a single query against the shim
state. -/
def run_query (s : ShimState) : Query → Answer × ShimState
  | .findq name =>
      let p := find_extension_st s name
      (.found p.1, p.2)
  | .resolveq entry symbol_name =>
      let p := resolve_function_st s entry symbol_name
      (.addr p.1, p.2)

/-- Modelled from the spec: execution of a sequence of queries within one
process run, threading the shim state. -/
def run_queries (s : ShimState) : List Query → List Answer × ShimState
  | [] => ([], s)
  | q :: qs =>
      let p := run_query s q
      let rest := run_queries p.2 qs
      (p.1 :: rest.1, rest.2)

/-- A concrete resolver body used to instantiate witnesses. -/
def null_resolver : Resolver := fun _ => none

/-- Any single query leaves the shim state unchanged. -/
theorem run_query_state (s : ShimState) (q : Query) : (run_query s q).2 = s := by
  cases q <;> rfl

/-- Closed form of `find_extension` over the one-row registry. -/
theorem find_extension_eq (f : Resolver) (name : String) :
    find_extension f name =
      if name = "cl_khr_d3d10_sharing"
      then some { name := some "cl_khr_d3d10_sharing", get_function := some f }
      else none := by
  by_cases h : name = "cl_khr_d3d10_sharing"
  · simp [find_extension, find_in, known_extensions, h, List.find?]
  · have hb : ("cl_khr_d3d10_sharing" == name) = false :=
      beq_eq_false_iff_ne.mpr fun hc => h hc.symm
    simp [find_extension, find_in, known_extensions, h, List.find?, hb]

/-- Every query in a run observes the initial state, and the state is
unchanged at the end. -/
theorem run_queries_eq (s : ShimState) (qs : List Query) :
    run_queries s qs = (qs.map fun q => (run_query s q).1, s) := by
  induction qs with
  | nil => rfl
  | cons q qs ih => simp [run_queries, run_query_state, ih]

/-- C1: for every input string, `find_extension` returns the matching registry
entry if and only if the string equals some registered entry's name by exact,
case-sensitive comparison; in particular the unregistered name
"cl_khr_gl_sharing" yields not-found. -/
theorem find_extension_exact_match (f : Resolver) (name : String) :
    ((∃ e, find_extension f name = some e ∧ e ∈ known_extensions f ∧
        e.name = some name) ↔ ∃ e ∈ known_extensions f, e.name = some name)
    ∧ ((∀ e ∈ known_extensions f, e.name ≠ some name) →
        find_extension f name = none)
    ∧ find_extension f "cl_khr_gl_sharing" = none := by
  refine ⟨?_, ?_, ?_⟩
  · by_cases h : name = "cl_khr_d3d10_sharing"
    · simp [find_extension_eq, known_extensions, h]
    · simp [find_extension_eq, known_extensions, h, Ne.symm h]
  · intro hall
    by_cases h : name = "cl_khr_d3d10_sharing"
    · subst h
      exact absurd rfl
        (hall { name := some "cl_khr_d3d10_sharing", get_function := some f }
          (by simp [known_extensions]))
    · simp [find_extension_eq, h]
  · simp [find_extension_eq]

/-- Witness for C1 at concrete inputs. -/
theorem find_extension_exact_match_witness :
    ((∃ e, find_extension null_resolver "abc" = some e ∧
        e ∈ known_extensions null_resolver ∧ e.name = some "abc") ↔
      ∃ e ∈ known_extensions null_resolver, e.name = some "abc") ∧
      ((∀ e ∈ known_extensions null_resolver, e.name ≠ some "abc") →
        find_extension null_resolver "abc" = none) ∧
      find_extension null_resolver "cl_khr_gl_sharing" = none :=
  find_extension_exact_match null_resolver "abc"

/-- C2: `find_extension` applied to "cl_khr_d3d10_sharing" returns the entry
whose name field is "cl_khr_d3d10_sharing" and whose resolver field is the
function `cl_khr_d3d10_sharing_get_function`. -/
theorem find_extension_d3d10 (cl_khr_d3d10_sharing_get_function : Resolver) :
    ∃ e, find_extension cl_khr_d3d10_sharing_get_function
          "cl_khr_d3d10_sharing" = some e ∧
      e.name = some "cl_khr_d3d10_sharing" ∧
      e.get_function = some cl_khr_d3d10_sharing_get_function :=
  ⟨{ name := some "cl_khr_d3d10_sharing",
     get_function := some cl_khr_d3d10_sharing_get_function },
   by simp [find_extension_eq], rfl, rfl⟩

/-- C3: for every registry entry and every symbol-name string,
`resolve_function` is pure delegation to the entry's resolver. -/
theorem resolve_function_delegates (f : Resolver) (entry : extension_info)
    (symbol_name : String) (h : entry ∈ known_extensions f) :
    ∃ r, entry.get_function = some r ∧
      resolve_function entry symbol_name = r symbol_name := by
  simp [known_extensions] at h
  subst h
  exact ⟨f, rfl, rfl⟩

/-- Witness for C3 at a concrete registry entry and symbol. -/
theorem resolve_function_delegates_witness :
    ({ name := some "cl_khr_d3d10_sharing", get_function := some null_resolver } :
        extension_info) ∈ known_extensions null_resolver ∧
      ∃ r, ({ name := some "cl_khr_d3d10_sharing",
              get_function := some null_resolver } :
            extension_info).get_function = some r ∧
        resolve_function
            { name := some "cl_khr_d3d10_sharing",
              get_function := some null_resolver }
            "clGetDeviceIDsFromD3D10KHR" = r "clGetDeviceIDsFromD3D10KHR" :=
  ⟨List.mem_singleton.mpr rfl,
   resolve_function_delegates null_resolver _ "clGetDeviceIDsFromD3D10KHR"
     (List.mem_singleton.mpr rfl)⟩

/-- C4: the name fields of the registry entries are pairwise distinct. -/
theorem known_extensions_names_distinct (f : Resolver) :
    (known_extensions f).Pairwise (fun a b => a.name ≠ b.name) := by
  simp [known_extensions]

/-- Witness for C4 at a concrete resolver. -/
theorem known_extensions_names_distinct_witness :
    (known_extensions null_resolver).Pairwise (fun a b => a.name ≠ b.name) :=
  known_extensions_names_distinct null_resolver

/-- C5: the registry is immutable: after any sequence of queries the state is
the initial one, and every query's answer is the one computed against the
initial registry contents. -/
theorem registry_immutable (f : Resolver) (qs : List Query) :
    (run_queries ⟨known_extensions f⟩ qs).2 = ⟨known_extensions f⟩ ∧
      (run_queries ⟨known_extensions f⟩ qs).1 =
        qs.map fun q => (run_query ⟨known_extensions f⟩ q).1 := by
  simp [run_queries_eq]

/-- C6: both operations are total functions into an optional result, and the
single failure kind — not recognized — is signaled exactly by the absent
(`none`) result. -/
theorem not_found_is_none (f : Resolver) (name : String)
    (entry : extension_info) (symbol_name : String) :
    (find_extension f name = none ↔
        ∀ e ∈ known_extensions f, e.name ≠ some name) ∧
      (resolve_function entry symbol_name = none ↔
        ∀ r, entry.get_function = some r → r symbol_name = none) := by
  refine ⟨?_, ?_⟩
  · by_cases h : name = "cl_khr_d3d10_sharing"
    · simp [find_extension_eq, known_extensions, h]
    · simp [find_extension_eq, known_extensions, h, Ne.symm h]
  · cases hg : entry.get_function <;> simp [resolve_function, hg]

/-- Witness for C6 at concrete inputs. -/
theorem not_found_is_none_witness :
    ((find_extension null_resolver "cl_khr_gl_sharing" = none ↔
        ∀ e ∈ known_extensions null_resolver,
          e.name ≠ some "cl_khr_gl_sharing") ∧
      (resolve_function
          { name := some "cl_khr_d3d10_sharing",
            get_function := some null_resolver } "clX" = none ↔
        ∀ r, ({ name := some "cl_khr_d3d10_sharing",
                get_function := some null_resolver } :
              extension_info).get_function = some r → r "clX" = none)) :=
  not_found_is_none null_resolver "cl_khr_gl_sharing"
    { name := some "cl_khr_d3d10_sharing", get_function := some null_resolver }
    "clX"

/-- C7: `find_extension` is deterministic and side-effect free: evaluating it
twice over the same registry state yields equal results, and evaluation
leaves the state unchanged. -/
theorem find_extension_deterministic (s : ShimState) (name : String) :
    (find_extension_st s name).1 =
        (find_extension_st (find_extension_st s name).2 name).1 ∧
      (find_extension_st s name).2 = s :=
  ⟨rfl, rfl⟩

/-- C9: the registry has exactly one entry, named "cl_khr_d3d10_sharing", so
every other string is not found. -/
theorem known_extensions_singleton (f : Resolver) :
    (known_extensions f).length = 1 ∧
      (∀ e ∈ known_extensions f, e.name = some "cl_khr_d3d10_sharing") ∧
      ∀ name, name ≠ "cl_khr_d3d10_sharing" → find_extension f name = none := by
  refine ⟨rfl, ?_, ?_⟩
  · simp [known_extensions]
  · intro name h
    simp [find_extension_eq, h]

/-- Witness for C9 at a concrete resolver. -/
theorem known_extensions_singleton_witness :
    (known_extensions null_resolver).length = 1 ∧
      (∀ e ∈ known_extensions null_resolver,
        e.name = some "cl_khr_d3d10_sharing") ∧
      ∀ name, name ≠ "cl_khr_d3d10_sharing" →
        find_extension null_resolver name = none :=
  known_extensions_singleton null_resolver

/-- C10: every registry entry has a non-null name and a non-null resolver —
the sole entry's resolver is `cl_khr_d3d10_sharing_get_function` — so
`resolve_function` on a registry entry never goes through a null function
pointer and simply invokes that resolver. -/
theorem registry_entries_nonnull
    (cl_khr_d3d10_sharing_get_function : Resolver) :
    ∀ e ∈ known_extensions cl_khr_d3d10_sharing_get_function,
      e.name ≠ none ∧
      e.get_function = some cl_khr_d3d10_sharing_get_function ∧
      ∀ symbol_name, resolve_function e symbol_name =
        cl_khr_d3d10_sharing_get_function symbol_name := by
  intro e he
  simp [known_extensions] at he
  subst he
  exact ⟨by simp, rfl, fun _ => rfl⟩

/-- Witness for C10 at a concrete resolver and entry. -/
theorem registry_entries_nonnull_witness :
    ({ name := some "cl_khr_d3d10_sharing",
       get_function := some null_resolver } : extension_info).name ≠ none ∧
      ({ name := some "cl_khr_d3d10_sharing",
         get_function := some null_resolver } :
        extension_info).get_function = some null_resolver ∧
      ∀ symbol_name,
        resolve_function
            { name := some "cl_khr_d3d10_sharing",
              get_function := some null_resolver } symbol_name =
          null_resolver symbol_name :=
  registry_entries_nonnull null_resolver _ (List.mem_singleton.mpr rfl)
